import Mathlib

set_option maxHeartbeats 1000000

/-!
Verification development for the SpaceInvaders training control plane.

Shallow embedding of the code in `src/training/train_v3.py` (the
`WinRateCallback`, `BestModelCallback`, `ConfigReloadCallback` and
`JsonLogCallback` observers) and `src/training/env.py` (the
`SpaceDogfightEnv` bridge to the external simulation subprocess).
Python floats are modelled as rationals, Python dictionaries carrying a
fixed set of optional keys as structures of `Option` fields, and the
nondeterministic behaviour of the external subprocess as an explicit
input to each call.
-/

/-- Python list slicing `l[-w:]`: for `w = 0` this is the whole list
(`l[-0:] = l[0:]`), otherwise the last `min w l.length` elements. -/
def pyTail (w : Nat) (l : List α) : List α :=
  if w = 0 then l else l.drop (l.length - w)

/-- The last `k` elements of a list (callers maintain `k ≤ l.length`). -/
def lastWindow (k : Nat) (l : List α) : List α :=
  l.drop (l.length - k)

/-- The fields of a terminal-info dictionary that
`WinRateCallback._on_step` reads: `winner`, `rewardBreakdown`,
`agentDeathCause`, `opponentDeathCause`.  A missing key is `none`. -/
structure TermInfo where
  winner : Option String
  rewardBreakdown : Option (List (String × Rat))
  agentDeathCause : Option String
  opponentDeathCause : Option String
  deriving DecidableEq

/-- A per-worker `info` dictionary: it may hold a `terminal_info`
sub-dictionary, and it may itself carry the terminal fields. -/
structure Info where
  terminal_info : Option TermInfo
  winner : Option String
  rewardBreakdown : Option (List (String × Rat))
  agentDeathCause : Option String
  opponentDeathCause : Option String
  deriving DecidableEq

/-- `info.get("terminal_info", info)`: the `terminal_info` value when the
key is present, otherwise the `info` dictionary itself. -/
def Info.terminal (i : Info) : TermInfo :=
  i.terminal_info.getD
    ⟨i.winner, i.rewardBreakdown, i.agentDeathCause, i.opponentDeathCause⟩

/-- The `outcome_details` classification of `WinRateCallback._on_step`:
`"agent"` is a win, `"draw_mutual"` and `"timeout"` keep their tag, and
every other winner value is recorded as a loss. -/
def classifyWinner (w : String) : String :=
  if w = "agent" then "win"
  else if w = "draw_mutual" then "draw_mutual"
  else if w = "timeout" then "timeout"
  else "loss"

/-- The mutable state of `WinRateCallback`. -/
structure WinState where
  window_size : Nat
  promotion_threshold : Rat
  min_episodes : Nat
  outcomes : List Nat
  outcome_details : List String
  agent_asteroid_deaths : Nat
  opponent_asteroid_deaths : Nat
  reward_breakdowns : List (List (String × Rat))
  should_promote : Bool
  deriving DecidableEq

/-- The body of the per-worker loop of `WinRateCallback._on_step` for one
`(done, info)` pair: when `done` holds and the terminal info resolves a
winner, append the binary outcome, the outcome detail, any reward
breakdown, and the asteroid-death counters; otherwise leave the state
unchanged. -/
def processEpisode (st : WinState) (done : Bool) (info : Info) : WinState :=
  if done then
    match (Info.terminal info).winner with
    | none => st
    | some w =>
      { st with
        outcomes := st.outcomes ++ [if w = "agent" then 1 else 0],
        outcome_details := st.outcome_details ++ [classifyWinner w],
        reward_breakdowns :=
          match (Info.terminal info).rewardBreakdown with
          | some rb => st.reward_breakdowns ++ [rb]
          | none => st.reward_breakdowns,
        agent_asteroid_deaths :=
          st.agent_asteroid_deaths +
            (if (Info.terminal info).agentDeathCause = some "asteroid" then 1 else 0),
        opponent_asteroid_deaths :=
          st.opponent_asteroid_deaths +
            (if (Info.terminal info).opponentDeathCause = some "asteroid" then 1 else 0) }
  else st

/-- The whole per-worker loop of `WinRateCallback._on_step` over the
tick's `(dones, infos)` arrays. -/
def appendEpisodes (st : WinState) (ticks : List (Bool × Info)) : WinState :=
  ticks.foldl (fun s t => processEpisode s t.1 t.2) st

/-- The promotion check at the end of `WinRateCallback._on_step`: once
`len(outcomes) >= max(window_size, min_episodes)`, the win rate over
`outcomes[-window_size:]` is compared with the promotion threshold and
`should_promote` is set (never cleared). -/
def promoCheck (st : WinState) : WinState :=
  if max st.window_size st.min_episodes ≤ st.outcomes.length then
    if st.promotion_threshold ≤
        ((pyTail st.window_size st.outcomes).sum : Rat)
          / ((pyTail st.window_size st.outcomes).length : Rat) then
      { st with should_promote := true }
    else st
  else st

/-- One call of `WinRateCallback._on_step`: record the tick's finished
episodes, then run the promotion check. -/
def winOnStep (st : WinState) (ticks : List (Bool × Info)) : WinState :=
  promoCheck (appendEpisodes st ticks)

/-- A sequence of `WinRateCallback._on_step` calls. -/
def winRun (st : WinState) (batches : List (List (Bool × Info))) : WinState :=
  batches.foldl winOnStep st

/-- `WinRateCallback._rolling_win_rate`: `None` on an empty history, else
the mean of `outcomes[-min(window_size, n):]`. -/
def rollingWinRate (st : WinState) : Option Rat :=
  if st.outcomes.length = 0 then none
  else
    some (((pyTail (min st.window_size st.outcomes.length) st.outcomes).sum : Rat)
      / ((pyTail (min st.window_size st.outcomes.length) st.outcomes).length : Rat))

/-- The promotion condition as the specification states it: at least
`max(window_size, min_episodes)` recorded outcomes, and the win rate over
the last `window_size` of them at least the promotion threshold. -/
def promotionEligible (st : WinState) : Bool :=
  decide (max st.window_size st.min_episodes ≤ st.outcomes.length) &&
  decide (st.promotion_threshold ≤
    ((lastWindow st.window_size st.outcomes).sum : Rat) / (st.window_size : Rat))

/-- The binary outcome a single `(done, info)` pair contributes to the
outcome history: `none` when nothing is counted. -/
def countedBit (t : Bool × Info) : Option Nat :=
  if t.1 then (Info.terminal t.2).winner.map (fun w => if w = "agent" then 1 else 0)
  else none

/-- The mutable state of `BestModelCallback`: the episode-count cadence,
the best rolling win rate seen so far this stage, and the history length
at the last performed check. -/
structure BestState where
  check_every : Nat
  best_win_rate : Rat
  last_checked_episodes : Nat
  deriving DecidableEq

/-- One performed check of `BestModelCallback._on_step`: the rolling win
rate it observed, the episode count at that moment, and whether it wrote
a new best checkpoint (`best.zip` and the `best_meta.json` record). -/
structure CheckEvent where
  wr : Rat
  episodes : Nat
  wrote : Bool
  deriving DecidableEq

/-- One call of `BestModelCallback._on_step`, reading the shared
`WinRateCallback` state: below `window_size` episodes it returns
immediately; below `check_every` new episodes since the last check it
returns immediately; otherwise it records the check and writes a new best
checkpoint exactly when the rolling win rate strictly exceeds the best
seen so far. -/
def bestStep (bs : BestState) (ws : WinState) : BestState × Option CheckEvent :=
  if ws.outcomes.length < ws.window_size then (bs, none)
  else if ws.outcomes.length - bs.last_checked_episodes < bs.check_every then (bs, none)
  else
    match rollingWinRate ws with
    | none => ({ bs with last_checked_episodes := ws.outcomes.length }, none)
    | some wr =>
      if bs.best_win_rate < wr then
        ({ bs with last_checked_episodes := ws.outcomes.length, best_win_rate := wr },
          some ⟨wr, ws.outcomes.length, true⟩)
      else
        ({ bs with last_checked_episodes := ws.outcomes.length },
          some ⟨wr, ws.outcomes.length, false⟩)

/-- A sequence of `BestModelCallback._on_step` calls over successive
snapshots of the outcome tracker, collecting the performed checks. -/
def bestRun (bs : BestState) (snaps : List WinState) : BestState × List CheckEvent :=
  match snaps with
  | [] => (bs, [])
  | s :: rest =>
    let p := bestStep bs s
    let r := bestRun p.1 rest
    (r.1, p.2.toList ++ r.2)

/-- Running maximum of a list of rationals over a base value. -/
def maxFrom (b : Rat) : List Rat → Rat
  | [] => b
  | x :: xs => maxFrom (max b x) xs

/-- Relational form of the strict-improvement rule over a list of
performed checks, threading the best value seen so far: every check
wrote exactly when its rate strictly exceeded the running best. -/
def eventsSpec : Rat → List CheckEvent → Prop
  | _, [] => True
  | b, e :: rest => e.wrote = decide (b < e.wr) ∧ eventsSpec (max b e.wr) rest

/-- A parsed reply from the bridge subprocess: an optional `error` field,
and the step/reset payload fields. -/
structure BridgeResponse where
  err : Option String
  observation : List Int
  reward : Rat
  done : Bool
  info : Info
  deriving DecidableEq

/-- What a bridge interaction of `SpaceDogfightEnv._send_command` finds:
an I/O failure while writing the request, end-of-stream on the reply
(`readline` returns the empty string), a reply line that is not valid
JSON, or a parsed reply. -/
inductive BridgeReply where
  | writeFails
  | replyEOF
  | replyGarbage
  | replyOk (r : BridgeResponse)
  deriving DecidableEq

/-- The subprocess handle of one `SpaceDogfightEnv`: `none` when
`_process is None`, `some true` when the handle is held and the process
is alive, `some false` when the handle is held but the process has
exited. -/
structure Bridge where
  handle : Option Bool
  deriving DecidableEq

/-- The errors `_send_command` can raise: the crash error (`RuntimeError`
after a caught I/O failure), an uncaught JSON parse error, and the
uncaught `AttributeError` from using a released (`None`) handle. -/
inductive SendError where
  | bridgeCrashed
  | protocolError
  | attributeError
  deriving DecidableEq

/-- `SpaceDogfightEnv._send_command`: write one JSON line and read one
reply line.  An I/O failure or an empty reply line is caught, the process
handle is killed and released, and the crash error is raised.  A reply
line that fails JSON parsing raises a parse error that is NOT caught, so
the handle is retained.  The reply outcome is an explicit input. -/
def sendCommandModel (st : Bridge) (io_ : BridgeReply) : Except SendError BridgeResponse × Bridge :=
  match st.handle with
  | none => (Except.error SendError.attributeError, st)
  | some _ =>
    match io_ with
    | BridgeReply.writeFails => (Except.error SendError.bridgeCrashed, ⟨none⟩)
    | BridgeReply.replyEOF => (Except.error SendError.bridgeCrashed, ⟨none⟩)
    | BridgeReply.replyGarbage => (Except.error SendError.protocolError, st)
    | BridgeReply.replyOk r => (Except.ok r, st)

/-- `SpaceDogfightEnv._ensure_process`: a no-op when the handle is held
and the process alive; otherwise kill any zombie and spawn a fresh
subprocess. -/
def ensureProcess (st : Bridge) : Bridge :=
  match st.handle with
  | some true => st
  | _ => ⟨some true⟩

/-- Errors surfaced by `reset` / `step`: a propagated `_send_command`
failure, or a `RuntimeError` for a reply carrying an `error` field. -/
inductive EnvError where
  | send (e : SendError)
  | bridgeError (msg : String)
  deriving DecidableEq

/-- `SpaceDogfightEnv.reset`: ensure the subprocess is running, send the
reset command, fail on an `error` reply, else return the observation. -/
def resetModel (st : Bridge) (io_ : BridgeReply) : Except EnvError (List Int) × Bridge :=
  match sendCommandModel (ensureProcess st) io_ with
  | (Except.error e, st2) => (Except.error (EnvError.send e), st2)
  | (Except.ok r, st2) =>
    match r.err with
    | some msg => (Except.error (EnvError.bridgeError msg), st2)
    | none => (Except.ok r.observation, st2)

/-- The tuple `SpaceDogfightEnv.step` returns. -/
structure StepResult where
  obs : List Int
  reward : Rat
  terminated : Bool
  truncated : Bool
  info : Info
  deriving DecidableEq

/-- `SpaceDogfightEnv.step`: send the step command (without ensuring the
subprocess — recovery happens only in `reset`), fail on an `error` reply,
else split `done` into terminated/truncated by the `winner` field. -/
def stepModel (st : Bridge) (io_ : BridgeReply) : Except EnvError StepResult × Bridge :=
  match sendCommandModel st io_ with
  | (Except.error e, st2) => (Except.error (EnvError.send e), st2)
  | (Except.ok r, st2) =>
    match r.err with
    | some msg => (Except.error (EnvError.bridgeError msg), st2)
    | none =>
      (Except.ok
        { obs := r.observation, reward := r.reward,
          terminated := r.done && !(r.info.winner == some "timeout"),
          truncated := r.done && (r.info.winner == some "timeout"),
          info := r.info }, st2)

/-- One telemetry record of `JsonLogCallback` (the fields of the `entry`
dictionary built in `_on_step`). -/
structure TelemetryEntry where
  ts : Rat
  step : Nat
  episodes : Nat
  win_rate : Option Rat
  mean_reward : Rat
  best_wr : Rat
  stage : Nat
  threshold : Rat
  deriving DecidableEq

/-- One line of the per-stage JSONL log: the serialization of an entry, a
line JSON parsing rejects, or a line that is empty after stripping. -/
inductive LogLine where
  | wellFormed (e : TelemetryEntry)
  | malformed
  | blank
  deriving DecidableEq

/-- The startup loop of `JsonLogCallback.__init__`: read every line of a
pre-existing stage JSONL file, skip blank lines, append each parseable
entry in order, and skip (not fail on) malformed lines. -/
def loadEntries (ls : List LogLine) : List TelemetryEntry :=
  ls.filterMap fun l =>
    match l with
    | LogLine.wellFormed e => some e
    | LogLine.malformed => none
    | LogLine.blank => none

/-- The state of `JsonLogCallback`: the wall-clock cadence, the in-memory
entry sequence, the durable JSONL file, the derived dashboard snapshot
artifact (`none` until this process first rewrites it), and the last log
time. -/
structure JsonLogState where
  interval : Rat
  entries : List TelemetryEntry
  jsonl_file : List LogLine
  dashboard : Option (List TelemetryEntry)
  last_log_time : Rat
  deriving DecidableEq

/-- `JsonLogCallback.__init__` over a pre-existing JSONL file. -/
def jsonLogInit (interval : Rat) (existing : List LogLine) : JsonLogState :=
  { interval := interval, entries := loadEntries existing, jsonl_file := existing,
    dashboard := none, last_log_time := 0 }

/-- One call of `JsonLogCallback._on_step`.  The wall clock `now` is an
input; the snapshot `entry` assembled from the tracker states
(win-rate, metrics and best-model callbacks) is passed in already built.
On an actual append the entry goes to the in-memory sequence and the
JSONL file, and the dashboard artifact is rewritten to the full
sequence. -/
def jsonLogStep (st : JsonLogState) (now : Rat) (entry : TelemetryEntry) : JsonLogState :=
  if st.last_log_time = 0 then { st with last_log_time := now }
  else if now - st.last_log_time < st.interval then st
  else
    { st with
      last_log_time := now,
      entries := st.entries ++ [entry],
      jsonl_file := st.jsonl_file ++ [LogLine.wellFormed entry],
      dashboard := some (st.entries ++ [entry]) }

/-- One stage's entry in the external configuration file (only the field
the watcher reads). -/
structure StageCfg where
  promotionThreshold : Option Rat
  deriving DecidableEq

/-- The optimizer block of the external configuration file (only the
field the watcher reads). -/
structure PpoCfg where
  learning_rate : Option Rat
  deriving DecidableEq

/-- A parsed external configuration file. -/
structure ConfigFile where
  stages : List (Nat × StageCfg)
  ppo : PpoCfg
  deriving DecidableEq

/-- The bookkeeping of `ConfigReloadCallback`. -/
structure ReloadState where
  stage_num : Nat
  check_every_seconds : Rat
  last_check_time : Rat
  last_mtime : Rat
  deriving DecidableEq

/-- The live trainer state the watcher can reach: the outcome tracker
(`win_cb`), the optimizer's learning rate (`model.learning_rate`), the
bridge subprocesses of the worker pool (which the watcher never
touches), and its own bookkeeping. -/
structure TrainerState where
  winCb : WinState
  learningRate : Rat
  bridges : List Bridge
  reload : ReloadState
  deriving DecidableEq

/-- One call of `ConfigReloadCallback._on_step`.  The wall clock, the
file's modification time (`none` when `os.path.getmtime` raises) and the
result of `load_config` (`none` when parsing raises) are inputs.  On a
successful reload the active stage's promotion threshold and the
learning rate are diffed against the live values and patched when they
differ; a reload failure is logged and otherwise ignored. -/
def configReloadStep (st : TrainerState) (now : Rat) (mtime : Option Rat)
    (loaded : Option ConfigFile) : TrainerState :=
  if now - st.reload.last_check_time < st.reload.check_every_seconds then st
  else
    let st1 := { st with reload := { st.reload with last_check_time := now } }
    match mtime with
    | none => st1
    | some m =>
      if m ≤ st1.reload.last_mtime then st1
      else
        let st2 := { st1 with reload := { st1.reload with last_mtime := m } }
        match loaded with
        | none => st2
        | some cfg =>
          let stageCfg := (cfg.stages.lookup st2.reload.stage_num).getD ⟨none⟩
          let newThreshold := stageCfg.promotionThreshold.getD st2.winCb.promotion_threshold
          let st3 :=
            if newThreshold ≠ st2.winCb.promotion_threshold then
              { st2 with winCb := { st2.winCb with promotion_threshold := newThreshold } }
            else st2
          let newLr := cfg.ppo.learning_rate.getD st3.learningRate
          if newLr ≠ st3.learningRate then { st3 with learningRate := newLr } else st3

/-- An `info` dictionary whose terminal info names the agent as winner. -/
def infoAgentWin : Info := ⟨none, some "agent", none, none, none⟩

/-- An `info` dictionary whose terminal info names the opponent as
winner. -/
def infoAgentLoss : Info := ⟨none, some "opponent", none, none, none⟩

/-- An `info` dictionary with no resolvable winner. -/
def infoNoWinner : Info := ⟨none, none, none, none, none⟩

/-- An `info` dictionary with an unrecognized winner tag. -/
def infoBananaWin : Info := ⟨none, some "banana", none, none, none⟩

/-- A fresh `WinRateCallback` state with window 5, threshold 0.8 and
minimum 5 episodes (the spec's example configuration). -/
def stExample5 : WinState := ⟨5, 4/5, 5, [], [], 0, 0, [], false⟩

/-- A fresh `WinRateCallback` state with window 1, threshold 0.5 and no
episode minimum. -/
def stExample1 : WinState := ⟨1, 1/2, 0, [], [], 0, 0, [], false⟩

/-- Tick batches producing the outcome stream `[1,1,1,1,0]`. -/
def streamPromote : List (List (Bool × Info)) :=
  [[(true, infoAgentWin)], [(true, infoAgentWin)], [(true, infoAgentWin)],
   [(true, infoAgentWin)], [(true, infoAgentLoss)]]

/-- Tick batches producing the outcome stream `[1,1,1,0,0]`. -/
def streamNoPromote : List (List (Bool × Info)) :=
  [[(true, infoAgentWin)], [(true, infoAgentWin)], [(true, infoAgentWin)],
   [(true, infoAgentLoss)], [(true, infoAgentLoss)]]

/-- The tracker state reached by `stExample5` on the stream `[1,1,1,1,0]`
just before the final promotion check. -/
def prePromote : WinState :=
  ⟨5, 4/5, 5, [1, 1, 1, 1, 0], ["win", "win", "win", "win", "loss"], 0, 0, [], false⟩

/-- The tracker state reached by `stExample5` on the stream
`[1,1,1,0,0]` just before the final promotion check. -/
def preNoPromote : WinState :=
  ⟨5, 4/5, 5, [1, 1, 1, 0, 0], ["win", "win", "win", "loss", "loss"], 0, 0, [], false⟩

/-- A tracker snapshot with one recorded win and window 1. -/
def wsOneWin : WinState := ⟨1, 1/2, 0, [1], ["win"], 0, 0, [], false⟩

/-- A tracker snapshot with one recorded win and window 5 (below the
window). -/
def wsBelowWindow : WinState := ⟨5, 1/2, 0, [1], ["win"], 0, 0, [], false⟩

/-- A successful bridge reply with no `error` field. -/
def respOk : BridgeResponse := ⟨none, [0, 1], 0, false, infoNoWinner⟩

/-- A telemetry entry used in concrete instantiations. -/
def entryExample : TelemetryEntry := ⟨1, 10, 2, some (1/2), 0, 1/2, 1, 4/5⟩

/-- Another telemetry entry used in concrete instantiations. -/
def entryExample2 : TelemetryEntry := ⟨2, 20, 4, some (3/4), 1, 3/4, 1, 4/5⟩

/-- A telemetry-logger state holding one loaded entry, with cadence 10
and a nonzero last log time. -/
def stJsonW : JsonLogState :=
  ⟨10, [entryExample], [LogLine.wellFormed entryExample], none, 1⟩

/-- A trainer state used in concrete instantiations of the hot-reload
theorem: stage 2 active, threshold 0.8 live, learning rate 3/10000. -/
def trainerExample : TrainerState :=
  ⟨⟨5, 4/5, 5, [1, 0, 1], ["win", "loss", "win"], 0, 0, [], false⟩,
   3/10000, [⟨some true⟩], ⟨2, 30, 0, 0⟩⟩

/-- A configuration file that changes only stage 2's promotion
threshold (to 0.9). -/
def cfgThresholdOnly : ConfigFile := ⟨[(2, ⟨some (9/10)⟩)], ⟨none⟩⟩

@[simp] lemma processEpisode_window_size (st : WinState) (d : Bool) (i : Info) :
    (processEpisode st d i).window_size = st.window_size := by
  unfold processEpisode
  cases d
  · simp
  · cases h : (Info.terminal i).winner
    · simp [h]
    · simp [h]

@[simp] lemma processEpisode_min_episodes (st : WinState) (d : Bool) (i : Info) :
    (processEpisode st d i).min_episodes = st.min_episodes := by
  unfold processEpisode
  cases d
  · simp
  · cases h : (Info.terminal i).winner
    · simp [h]
    · simp [h]

@[simp] lemma processEpisode_promotion_threshold (st : WinState) (d : Bool) (i : Info) :
    (processEpisode st d i).promotion_threshold = st.promotion_threshold := by
  unfold processEpisode
  cases d
  · simp
  · cases h : (Info.terminal i).winner
    · simp [h]
    · simp [h]

@[simp] lemma processEpisode_should_promote (st : WinState) (d : Bool) (i : Info) :
    (processEpisode st d i).should_promote = st.should_promote := by
  unfold processEpisode
  cases d
  · simp
  · cases h : (Info.terminal i).winner
    · simp [h]
    · simp [h]

@[simp] lemma appendEpisodes_window_size (st : WinState) (ticks : List (Bool × Info)) :
    (appendEpisodes st ticks).window_size = st.window_size := by
  induction ticks generalizing st with
  | nil => rfl
  | cons t ts ih => simp [appendEpisodes, List.foldl_cons] at ih ⊢; rw [ih]; simp

@[simp] lemma appendEpisodes_min_episodes (st : WinState) (ticks : List (Bool × Info)) :
    (appendEpisodes st ticks).min_episodes = st.min_episodes := by
  induction ticks generalizing st with
  | nil => rfl
  | cons t ts ih => simp [appendEpisodes, List.foldl_cons] at ih ⊢; rw [ih]; simp

@[simp] lemma appendEpisodes_promotion_threshold (st : WinState) (ticks : List (Bool × Info)) :
    (appendEpisodes st ticks).promotion_threshold = st.promotion_threshold := by
  induction ticks generalizing st with
  | nil => rfl
  | cons t ts ih => simp [appendEpisodes, List.foldl_cons] at ih ⊢; rw [ih]; simp

@[simp] lemma appendEpisodes_should_promote (st : WinState) (ticks : List (Bool × Info)) :
    (appendEpisodes st ticks).should_promote = st.should_promote := by
  induction ticks generalizing st with
  | nil => rfl
  | cons t ts ih => simp [appendEpisodes, List.foldl_cons] at ih ⊢; rw [ih]; simp

lemma pyTail_of_pos (w : Nat) (l : List α) (hw : w ≠ 0) :
    pyTail w l = lastWindow w l := by
  unfold pyTail lastWindow
  rw [if_neg hw]

lemma lastWindow_length (k : Nat) (l : List α) (hk : k ≤ l.length) :
    (lastWindow k l).length = k := by
  unfold lastWindow
  rw [List.length_drop]
  omega

lemma promoCheck_should_promote (st : WinState) (hw : 1 ≤ st.window_size) :
    (promoCheck st).should_promote = (st.should_promote || promotionEligible st) := by
  unfold promoCheck
  by_cases hn : max st.window_size st.min_episodes ≤ st.outcomes.length
  · have hw0 : st.window_size ≠ 0 := by omega
    have hwle : st.window_size ≤ st.outcomes.length := le_trans (le_max_left _ _) hn
    have hpt : pyTail st.window_size st.outcomes = lastWindow st.window_size st.outcomes :=
      pyTail_of_pos _ _ hw0
    have hlen : (lastWindow st.window_size st.outcomes).length = st.window_size :=
      lastWindow_length _ _ hwle
    rw [if_pos hn, hpt, hlen]
    by_cases hr : st.promotion_threshold ≤
        ((lastWindow st.window_size st.outcomes).sum : Rat) / (st.window_size : Rat)
    · rw [if_pos hr]
      have he : promotionEligible st = true := by
        unfold promotionEligible
        rw [decide_eq_true hn, decide_eq_true hr]
        rfl
      rw [he, Bool.or_true]
    · rw [if_neg hr]
      have he : promotionEligible st = false := by
        unfold promotionEligible
        rw [decide_eq_false hr, Bool.and_false]
      rw [he, Bool.or_false]
  · rw [if_neg hn]
    have he : promotionEligible st = false := by
      unfold promotionEligible
      rw [decide_eq_false hn, Bool.false_and]
    rw [he, Bool.or_false]

lemma promoCheck_mono (st : WinState) (h : st.should_promote = true) :
    (promoCheck st).should_promote = true := by
  unfold promoCheck
  split
  · split
    · simp
    · exact h
  · exact h

lemma winOnStep_mono (st : WinState) (ticks : List (Bool × Info))
    (h : st.should_promote = true) :
    (winOnStep st ticks).should_promote = true := by
  unfold winOnStep
  apply promoCheck_mono
  rw [appendEpisodes_should_promote]
  exact h

lemma winRun_mono (batches : List (List (Bool × Info))) (st : WinState)
    (h : st.should_promote = true) :
    (winRun st batches).should_promote = true := by
  induction batches generalizing st with
  | nil => exact h
  | cons b bs ih =>
    simp only [winRun, List.foldl_cons]
    exact ih _ (winOnStep_mono _ _ h)

/-- Claim C1: the promotion flag `should_promote` of `WinRateCallback` is
a monotone latch: after every `_on_step` call it equals the old flag
or-ed with the eligibility condition (at least
`max(window_size, min_episodes)` recorded outcomes and rolling win rate
over the last `window_size` outcomes at least the promotion threshold) on
the updated history, so it becomes true at the first tick at which that
condition holds; and once true it never becomes false again, whatever
ticks follow. -/
theorem winrate_promotion_latch (st : WinState) (ticks : List (Bool × Info))
    (hw : 1 ≤ st.window_size) :
    (winOnStep st ticks).should_promote
      = (st.should_promote || promotionEligible (appendEpisodes st ticks))
    ∧ (∀ batches : List (List (Bool × Info)),
        st.should_promote = true → (winRun st batches).should_promote = true) := by
  constructor
  · have hw' : 1 ≤ (appendEpisodes st ticks).window_size := by
      rw [appendEpisodes_window_size]; exact hw
    unfold winOnStep
    rw [promoCheck_should_promote _ hw', appendEpisodes_should_promote]
  · intro batches h
    exact winRun_mono batches st h

theorem winrate_promotion_latch_witness :
    1 ≤ stExample1.window_size
    ∧ (winOnStep stExample1 [(true, infoAgentWin)]).should_promote
        = (stExample1.should_promote
            || promotionEligible (appendEpisodes stExample1 [(true, infoAgentWin)])) :=
  ⟨by decide, (winrate_promotion_latch stExample1 [(true, infoAgentWin)] (by decide)).1⟩

lemma promoCheck_of_le (st : WinState)
    (h1 : max st.window_size st.min_episodes ≤ st.outcomes.length)
    (h2 : st.promotion_threshold ≤
        ((pyTail st.window_size st.outcomes).sum : Rat)
          / ((pyTail st.window_size st.outcomes).length : Rat)) :
    promoCheck st = { st with should_promote := true } := by
  unfold promoCheck
  rw [if_pos h1, if_pos h2]

lemma promoCheck_of_not_le (st : WinState)
    (h2 : ¬ st.promotion_threshold ≤
        ((pyTail st.window_size st.outcomes).sum : Rat)
          / ((pyTail st.window_size st.outcomes).length : Rat)) :
    promoCheck st = st := by
  unfold promoCheck
  by_cases h1 : max st.window_size st.min_episodes ≤ st.outcomes.length
  · rw [if_pos h1, if_neg h2]
  · rw [if_neg h1]

lemma winRun_promote_eq :
    winRun stExample5 streamPromote = { prePromote with should_promote := true } := by
  have hpre : winRun stExample5 streamPromote = promoCheck prePromote := rfl
  rw [hpre]
  exact promoCheck_of_le prePromote (by decide) (by norm_num [prePromote, pyTail])

lemma winRun_noPromote_eq :
    winRun stExample5 streamNoPromote = preNoPromote := by
  have hpre : winRun stExample5 streamNoPromote = promoCheck preNoPromote := rfl
  rw [hpre]
  exact promoCheck_of_not_le preNoPromote (by norm_num [preNoPromote, pyTail])

lemma sum_eq_count_one (l : List Nat) (h : ∀ x ∈ l, x ≤ 1) :
    l.sum = l.count 1 := by
  induction l with
  | nil => rfl
  | cons x xs ih =>
    have hx : x ≤ 1 := h x (List.mem_cons_self x xs)
    have hxs : xs.sum = xs.count 1 := ih (fun y hy => h y (List.mem_cons_of_mem x hy))
    rcases Nat.le_one_iff_eq_zero_or_eq_one.mp hx with h0 | h1
    · subst h0
      simp [List.count_cons, hxs]
    · subst h1
      simp [List.count_cons, hxs, Nat.add_comm]

/-- Claim C2: `WinRateCallback._rolling_win_rate` is `None` exactly when
the outcome history is empty, and otherwise equals the number of wins
among the last `min(window_size, n)` recorded outcomes divided by that
window length.  With window 5, minimum 5 and threshold 0.8, the stream
`[1,1,1,1,0]` yields rate 0.8 and promotes, while `[1,1,1,0,0]` yields
0.6 and does not. -/
theorem rolling_win_rate_spec (st : WinState)
    (hw : 1 ≤ st.window_size) (hb : ∀ x ∈ st.outcomes, x ≤ 1) :
    (rollingWinRate st = none ↔ st.outcomes = [])
    ∧ (st.outcomes ≠ [] →
        rollingWinRate st
          = some
              (((lastWindow (min st.window_size st.outcomes.length) st.outcomes).count 1 : Rat)
                / ((min st.window_size st.outcomes.length : Nat) : Rat)))
    ∧ (winRun stExample5 streamPromote).outcomes = [1, 1, 1, 1, 0]
    ∧ rollingWinRate (winRun stExample5 streamPromote) = some (4/5)
    ∧ (winRun stExample5 streamPromote).should_promote = true
    ∧ (winRun stExample5 streamNoPromote).outcomes = [1, 1, 1, 0, 0]
    ∧ rollingWinRate (winRun stExample5 streamNoPromote) = some (3/5)
    ∧ (winRun stExample5 streamNoPromote).should_promote = false := by
  refine ⟨?_, ?_, ?_, ?_, ?_, ?_, ?_, ?_⟩
  case refine_3 => rw [winRun_promote_eq]; rfl
  case refine_4 =>
    rw [winRun_promote_eq]
    norm_num [rollingWinRate, prePromote, pyTail]
  case refine_5 => rw [winRun_promote_eq]
  case refine_6 => rw [winRun_noPromote_eq]; rfl
  case refine_7 =>
    rw [winRun_noPromote_eq]
    norm_num [rollingWinRate, preNoPromote, pyTail]
  case refine_8 => rw [winRun_noPromote_eq]; rfl
  · unfold rollingWinRate
    by_cases h : st.outcomes.length = 0
    · rw [if_pos h]
      simp [List.length_eq_zero.mp h]
    · rw [if_neg h]
      simp only [reduceCtorEq, false_iff]
      intro heq
      exact h (by rw [heq]; rfl)
  · intro hne
    have hlen : st.outcomes.length ≠ 0 := by
      intro h0
      exact hne (List.length_eq_zero.mp h0)
    have hmin0 : min st.window_size st.outcomes.length ≠ 0 := by
      rcases Nat.eq_zero_or_pos st.outcomes.length with h0 | h0
      · exact absurd h0 hlen
      · have := Nat.lt_of_lt_of_le (Nat.zero_lt_one) hw
        omega
    have hminle : min st.window_size st.outcomes.length ≤ st.outcomes.length :=
      Nat.min_le_right _ _
    have hsub : ∀ x ∈ lastWindow (min st.window_size st.outcomes.length) st.outcomes, x ≤ 1 :=
      fun x hx => hb x (List.drop_subset _ _ hx)
    unfold rollingWinRate
    rw [if_neg hlen, pyTail_of_pos _ _ hmin0,
      lastWindow_length _ _ hminle, sum_eq_count_one _ hsub]

theorem rolling_win_rate_spec_witness :
    1 ≤ wsOneWin.window_size
    ∧ (rollingWinRate wsOneWin = none ↔ wsOneWin.outcomes = []) :=
  ⟨by decide, (rolling_win_rate_spec wsOneWin (by decide) (by decide)).1⟩

lemma promoCheck_outcomes (st : WinState) :
    (promoCheck st).outcomes = st.outcomes := by
  unfold promoCheck
  split
  · split
    · rfl
    · rfl
  · rfl

lemma promoCheck_outcome_details (st : WinState) :
    (promoCheck st).outcome_details = st.outcome_details := by
  unfold promoCheck
  split
  · split
    · rfl
    · rfl
  · rfl

lemma processEpisode_outcomes (st : WinState) (d : Bool) (i : Info) :
    (processEpisode st d i).outcomes = st.outcomes ++ (countedBit (d, i)).toList := by
  unfold processEpisode countedBit
  cases d
  · simp
  · cases h : (Info.terminal i).winner
    · simp [h]
    · simp [h]

lemma appendEpisodes_outcomes (st : WinState) (ticks : List (Bool × Info)) :
    (appendEpisodes st ticks).outcomes = st.outcomes ++ ticks.filterMap countedBit := by
  induction ticks generalizing st with
  | nil => simp [appendEpisodes]
  | cons t ts ih =>
    obtain ⟨d, i⟩ := t
    simp only [appendEpisodes, List.foldl_cons] at ih ⊢
    rw [ih, processEpisode_outcomes]
    cases h : countedBit (d, i)
    · simp [List.filterMap_cons, h]
    · simp [List.filterMap_cons, h]

/-- Claim C6: each `(done, info)` pair contributes at most one entry to
the binary outcome history — exactly the pairs with `done` true and a
resolvable winner in the terminal info contribute, in order; a
non-terminal tick contributes nothing, and a terminal tick whose winner
field is absent is skipped. -/
theorem episode_counted_at_most_once (st : WinState) (ticks : List (Bool × Info)) :
    (winOnStep st ticks).outcomes = st.outcomes ++ ticks.filterMap countedBit
    ∧ (∀ info : Info, processEpisode st false info = st)
    ∧ (∀ info : Info, (Info.terminal info).winner = none →
        processEpisode st true info = st) := by
  refine ⟨?_, ?_, ?_⟩
  · unfold winOnStep
    rw [promoCheck_outcomes, appendEpisodes_outcomes]
  · intro info
    rfl
  · intro info h
    unfold processEpisode
    simp [h]

theorem episode_counted_at_most_once_witness :
    (winOnStep stExample5
        [(true, infoNoWinner), (true, infoAgentWin), (false, infoAgentWin)]).outcomes
        = stExample5.outcomes
          ++ ([(true, infoNoWinner), (true, infoAgentWin), (false, infoAgentWin)] :
              List (Bool × Info)).filterMap countedBit
    ∧ processEpisode stExample5 true infoNoWinner = stExample5 :=
  ⟨(episode_counted_at_most_once stExample5
      [(true, infoNoWinner), (true, infoAgentWin), (false, infoAgentWin)]).1,
   (episode_counted_at_most_once stExample5 []).2.2 infoNoWinner (by decide)⟩

/-- Claim C9: a counted episode is classified by its winner tag —
`"agent"` as a win, `"draw_mutual"` and `"timeout"` as themselves, and
any other tag silently as a loss — and the binary history entry is 1
exactly when the winner is `"agent"`. -/
theorem outcome_classification (st : WinState) (info : Info) (w : String)
    (hwin : (Info.terminal info).winner = some w) :
    (winOnStep st [(true, info)]).outcomes
        = st.outcomes ++ [if w = "agent" then 1 else 0]
    ∧ (winOnStep st [(true, info)]).outcome_details
        = st.outcome_details ++ [classifyWinner w]
    ∧ classifyWinner "agent" = "win"
    ∧ classifyWinner "draw_mutual" = "draw_mutual"
    ∧ classifyWinner "timeout" = "timeout"
    ∧ (∀ v : String, v ≠ "agent" → v ≠ "draw_mutual" → v ≠ "timeout" →
        classifyWinner v = "loss")
    ∧ ((if w = "agent" then (1 : Nat) else 0) = 1 ↔ w = "agent") := by
  refine ⟨?_, ?_, by decide, by decide, by decide, ?_, ?_⟩
  · unfold winOnStep
    rw [promoCheck_outcomes]
    simp [appendEpisodes, processEpisode, hwin]
  · unfold winOnStep
    rw [promoCheck_outcome_details]
    simp [appendEpisodes, processEpisode, hwin]
  · intro v h1 h2 h3
    unfold classifyWinner
    rw [if_neg h1, if_neg h2, if_neg h3]
  · by_cases hag : w = "agent"
    · simp [hag]
    · simp [hag]

theorem outcome_classification_witness :
    (winOnStep stExample5 [(true, infoBananaWin)]).outcome_details
        = stExample5.outcome_details ++ [classifyWinner "banana"]
    ∧ classifyWinner "banana" = "loss" :=
  ⟨(outcome_classification stExample5 infoBananaWin "banana" (by decide)).2.1,
   (outcome_classification stExample5 infoBananaWin "banana" (by decide)).2.2.2.2.2.1
     "banana" (by decide) (by decide) (by decide)⟩

lemma bestStep_gate1 (bs : BestState) (ws : WinState)
    (h : ws.outcomes.length < ws.window_size) :
    bestStep bs ws = (bs, none) := by
  unfold bestStep
  rw [if_pos h]

lemma bestStep_gate2 (bs : BestState) (ws : WinState)
    (h1 : ¬ ws.outcomes.length < ws.window_size)
    (h2 : ws.outcomes.length - bs.last_checked_episodes < bs.check_every) :
    bestStep bs ws = (bs, none) := by
  unfold bestStep
  rw [if_neg h1, if_pos h2]

lemma bestStep_none_rate (bs : BestState) (ws : WinState)
    (h1 : ¬ ws.outcomes.length < ws.window_size)
    (h2 : ¬ ws.outcomes.length - bs.last_checked_episodes < bs.check_every)
    (hr : rollingWinRate ws = none) :
    bestStep bs ws = ({ bs with last_checked_episodes := ws.outcomes.length }, none) := by
  unfold bestStep
  rw [if_neg h1, if_neg h2, hr]

lemma bestStep_some_rate (bs : BestState) (ws : WinState) (wr : Rat)
    (h1 : ¬ ws.outcomes.length < ws.window_size)
    (h2 : ¬ ws.outcomes.length - bs.last_checked_episodes < bs.check_every)
    (hr : rollingWinRate ws = some wr) :
    bestStep bs ws
      = if bs.best_win_rate < wr then
          ({ bs with last_checked_episodes := ws.outcomes.length, best_win_rate := wr },
            some ⟨wr, ws.outcomes.length, true⟩)
        else
          ({ bs with last_checked_episodes := ws.outcomes.length },
            some ⟨wr, ws.outcomes.length, false⟩) := by
  unfold bestStep
  rw [if_neg h1, if_neg h2, hr]

lemma bestStep_event (bs : BestState) (ws : WinState) (ev : CheckEvent)
    (h : (bestStep bs ws).2 = some ev) :
    ev.wrote = decide (bs.best_win_rate < ev.wr)
    ∧ (bestStep bs ws).1.best_win_rate = max bs.best_win_rate ev.wr := by
  by_cases g1 : ws.outcomes.length < ws.window_size
  · rw [bestStep_gate1 bs ws g1] at h
    simp at h
  · by_cases g2 : ws.outcomes.length - bs.last_checked_episodes < bs.check_every
    · rw [bestStep_gate2 bs ws g1 g2] at h
      simp at h
    · cases hr : rollingWinRate ws with
      | none =>
        rw [bestStep_none_rate bs ws g1 g2 hr] at h
        simp at h
      | some wr =>
        rw [bestStep_some_rate bs ws wr g1 g2 hr] at h ⊢
        by_cases g3 : bs.best_win_rate < wr
        · rw [if_pos g3] at h ⊢
          simp only [Option.some.injEq] at h
          subst h
          refine ⟨(decide_eq_true g3).symm, ?_⟩
          exact (max_eq_right (le_of_lt g3)).symm
        · rw [if_neg g3] at h ⊢
          simp only [Option.some.injEq] at h
          subst h
          refine ⟨(decide_eq_false g3).symm, ?_⟩
          exact (max_eq_left (not_lt.mp g3)).symm

lemma bestStep_none_best (bs : BestState) (ws : WinState)
    (h : (bestStep bs ws).2 = none) :
    (bestStep bs ws).1.best_win_rate = bs.best_win_rate := by
  by_cases g1 : ws.outcomes.length < ws.window_size
  · rw [bestStep_gate1 bs ws g1]
  · by_cases g2 : ws.outcomes.length - bs.last_checked_episodes < bs.check_every
    · rw [bestStep_gate2 bs ws g1 g2]
    · cases hr : rollingWinRate ws with
      | none => rw [bestStep_none_rate bs ws g1 g2 hr]
      | some wr =>
        rw [bestStep_some_rate bs ws wr g1 g2 hr] at h
        by_cases g3 : bs.best_win_rate < wr
        · rw [if_pos g3] at h
          simp at h
        · rw [if_neg g3] at h
          simp at h

lemma bestRun_cons (bs : BestState) (s : WinState) (rest : List WinState) :
    bestRun bs (s :: rest)
      = ((bestRun (bestStep bs s).1 rest).1,
        (bestStep bs s).2.toList ++ (bestRun (bestStep bs s).1 rest).2) := rfl

lemma bestRun_eventsSpec (snaps : List WinState) :
    ∀ bs : BestState, eventsSpec bs.best_win_rate (bestRun bs snaps).2 := by
  induction snaps with
  | nil =>
    intro bs
    exact trivial
  | cons s rest ih =>
    intro bs
    rw [bestRun_cons]
    cases hev : (bestStep bs s).2 with
    | none =>
      simp only [Option.toList_none, List.nil_append]
      have hb := bestStep_none_best bs s hev
      have := ih (bestStep bs s).1
      rw [hb] at this
      exact this
    | some ev =>
      simp only [Option.toList_some, List.singleton_append]
      obtain ⟨hw, hb⟩ := bestStep_event bs s ev hev
      refine ⟨hw, ?_⟩
      have := ih (bestStep bs s).1
      rw [hb] at this
      exact this

lemma eventsSpec_iff (l : List CheckEvent) :
    ∀ b : Rat, eventsSpec b l →
      ∀ (k : Nat) (hk : k < l.length),
        ((l.get ⟨k, hk⟩).wrote = true
          ↔ (b < (l.get ⟨k, hk⟩).wr
              ∧ ∀ e ∈ l.take k, e.wr < (l.get ⟨k, hk⟩).wr)) := by
  induction l with
  | nil =>
    intro b _ k hk
    simp at hk
  | cons e rest ih =>
    intro b hspec k hk
    obtain ⟨h1, h2⟩ := hspec
    cases k with
    | zero =>
      simp only [List.get, List.take_zero]
      constructor
      · intro hw
        rw [hw] at h1
        refine ⟨of_decide_eq_true h1.symm, ?_⟩
        intro e' he'
        simp at he'
      · rintro ⟨hlt, _⟩
        rw [h1]
        exact decide_eq_true hlt
    | succ j =>
      have hj : j < rest.length := Nat.succ_lt_succ_iff.mp (by simpa using hk)
      have hih := ih (max b e.wr) h2 j hj
      have hget : (e :: rest).get ⟨j + 1, hk⟩ = rest.get ⟨j, hj⟩ := rfl
      rw [hget, List.take_succ_cons]
      rw [hih]
      constructor
      · rintro ⟨hmax, hall⟩
        rcases max_lt_iff.mp hmax with ⟨hb, he⟩
        refine ⟨hb, ?_⟩
        intro e' he'
        rcases List.mem_cons.mp he' with h | h
        · subst h
          exact he
        · exact hall e' h
      · rintro ⟨hb, hall⟩
        refine ⟨max_lt_iff.mpr ⟨hb, hall e (List.mem_cons_self e _)⟩, ?_⟩
        intro e' he'
        exact hall e' (List.mem_cons_of_mem e he')

/-- Claim C3: over any sequence of outcome-tracker snapshots, a check of
`BestModelCallback` writes a new best checkpoint exactly when the rolling
win rate it observes strictly exceeds the stage-initial best of 0 and
every previously observed value — in particular ties are never re-saved;
a performed check requires the history to have grown by at least
`check_every` episodes since the last check, and a written record carries
exactly the observed rolling win rate and episode count. -/
theorem best_checkpoint_strict_improvement (snaps : List WinState) (ce : Nat)
    (k : Nat) (hk : k < (bestRun ⟨ce, 0, 0⟩ snaps).2.length) :
    (((bestRun ⟨ce, 0, 0⟩ snaps).2.get ⟨k, hk⟩).wrote = true
      ↔ (0 < ((bestRun ⟨ce, 0, 0⟩ snaps).2.get ⟨k, hk⟩).wr
          ∧ ∀ e ∈ (bestRun ⟨ce, 0, 0⟩ snaps).2.take k,
              e.wr < ((bestRun ⟨ce, 0, 0⟩ snaps).2.get ⟨k, hk⟩).wr))
    ∧ (∀ (bs : BestState) (ws : WinState) (ev : CheckEvent),
        (bestStep bs ws).2 = some ev →
          bs.check_every ≤ ws.outcomes.length - bs.last_checked_episodes
          ∧ rollingWinRate ws = some ev.wr
          ∧ ev.episodes = ws.outcomes.length) := by
  constructor
  · exact eventsSpec_iff _ 0 (bestRun_eventsSpec snaps ⟨ce, 0, 0⟩) k hk
  · intro bs ws ev h
    by_cases g1 : ws.outcomes.length < ws.window_size
    · rw [bestStep_gate1 bs ws g1] at h
      simp at h
    · by_cases g2 : ws.outcomes.length - bs.last_checked_episodes < bs.check_every
      · rw [bestStep_gate2 bs ws g1 g2] at h
        simp at h
      · cases hr : rollingWinRate ws with
        | none =>
          rw [bestStep_none_rate bs ws g1 g2 hr] at h
          simp at h
        | some wr =>
          rw [bestStep_some_rate bs ws wr g1 g2 hr] at h
          by_cases g3 : bs.best_win_rate < wr
          · rw [if_pos g3] at h
            simp only [Option.some.injEq] at h
            subst h
            exact ⟨by omega, rfl, rfl⟩
          · rw [if_neg g3] at h
            simp only [Option.some.injEq] at h
            subst h
            exact ⟨by omega, rfl, rfl⟩

lemma rollingWinRate_wsOneWin : rollingWinRate wsOneWin = some 1 := by
  norm_num [rollingWinRate, wsOneWin, pyTail]

lemma bestRun_wsOneWin_eval :
    bestRun ⟨1, 0, 0⟩ [wsOneWin] = (⟨1, 1, 1⟩, [⟨1, 1, true⟩]) := by
  have hstep : bestStep ⟨1, 0, 0⟩ wsOneWin = (⟨1, 1, 1⟩, some ⟨1, 1, true⟩) := by
    rw [bestStep_some_rate ⟨1, 0, 0⟩ wsOneWin 1 (by decide) (by decide)
      rollingWinRate_wsOneWin]
    rw [if_pos (by norm_num : (0 : Rat) < 1)]
    rfl
  simp [bestRun, hstep]

theorem bestRun_wsOneWin_len : 0 < (bestRun ⟨1, 0, 0⟩ [wsOneWin]).2.length := by
  rw [bestRun_wsOneWin_eval]
  decide

theorem best_checkpoint_strict_improvement_witness :
    ((bestRun ⟨1, 0, 0⟩ [wsOneWin]).2.get ⟨0, bestRun_wsOneWin_len⟩).wrote = true := by
  refine ((best_checkpoint_strict_improvement [wsOneWin] 1 0 bestRun_wsOneWin_len).1).mpr ?_
  have hl : (bestRun ⟨1, 0, 0⟩ [wsOneWin]).2 = [⟨1, 1, true⟩] :=
    congrArg Prod.snd bestRun_wsOneWin_eval
  constructor
  · rw [List.get_of_eq hl]
    norm_num
  · intro e he
    rw [List.take_zero] at he
    simp at he

/-- Claim C10: `BestModelCallback._on_step` performs no improvement check
while the outcome history holds fewer than `window_size` episodes — the
tracker state is unchanged and nothing is written — and consequently any
performed check (hence the first best checkpoint of a stage, if any) can
only happen at or after `window_size` counted episodes. -/
theorem best_no_check_below_window (bs : BestState) (ws : WinState)
    (h : ws.outcomes.length < ws.window_size) :
    bestStep bs ws = (bs, none)
    ∧ (∀ (bs2 : BestState) (ws2 : WinState) (ev : CheckEvent),
        (bestStep bs2 ws2).2 = some ev → ws2.window_size ≤ ws2.outcomes.length) := by
  constructor
  · exact bestStep_gate1 bs ws h
  · intro bs2 ws2 ev hev
    by_cases g1 : ws2.outcomes.length < ws2.window_size
    · rw [bestStep_gate1 bs2 ws2 g1] at hev
      simp at hev
    · omega

theorem best_no_check_below_window_witness :
    wsBelowWindow.outcomes.length < wsBelowWindow.window_size
    ∧ bestStep ⟨50, 0, 0⟩ wsBelowWindow = (⟨50, 0, 0⟩, none) :=
  ⟨by decide, (best_no_check_below_window ⟨50, 0, 0⟩ wsBelowWindow (by decide)).1⟩

lemma ensureProcess_of_not_running (st : Bridge) (h : st.handle ≠ some true) :
    ensureProcess st = ⟨some true⟩ := by
  obtain ⟨ho⟩ := st
  unfold ensureProcess
  cases ho with
  | none => rfl
  | some b =>
    cases b
    · rfl
    · exact absurd rfl h

/-- Claim C4 (counterexample): on a live bridge, a reply line that JSON
parsing rejects does NOT fail with the crash error and does NOT release
the process handle — the call fails with the distinct uncaught parse
error and the bridge state is unchanged, contradicting the claim that a
malformed response is treated identically to a crash. -/
theorem malformed_reply_not_crash_cex :
    (sendCommandModel ⟨some true⟩ BridgeReply.replyGarbage).1
        = Except.error SendError.protocolError
    ∧ (sendCommandModel ⟨some true⟩ BridgeReply.replyGarbage).2 = ⟨some true⟩
    ∧ ¬ (sendCommandModel ⟨some true⟩ BridgeReply.replyGarbage
          = (Except.error SendError.bridgeCrashed, (⟨none⟩ : Bridge))) := by
  refine ⟨rfl, rfl, ?_⟩
  intro h
  simp [sendCommandModel] at h

/-- Claim C4 (amended): a malformed response line read by `_send_command`
raises a parse error that is not converted to the crash error: the
process handle is retained and the bridge does not transition to Dead;
only a write failure or end-of-stream on the reply is caught, releases
the handle, and fails with the crash error. -/
theorem malformed_reply_propagates (st : Bridge) (h : st.handle ≠ none) :
    sendCommandModel st BridgeReply.replyGarbage
        = (Except.error SendError.protocolError, st)
    ∧ sendCommandModel st BridgeReply.replyEOF
        = (Except.error SendError.bridgeCrashed, ⟨none⟩)
    ∧ sendCommandModel st BridgeReply.writeFails
        = (Except.error SendError.bridgeCrashed, ⟨none⟩) := by
  obtain ⟨ho⟩ := st
  cases ho with
  | none => exact absurd rfl h
  | some b => exact ⟨rfl, rfl, rfl⟩

theorem malformed_reply_propagates_witness :
    (⟨some true⟩ : Bridge).handle ≠ none
    ∧ sendCommandModel ⟨some true⟩ BridgeReply.replyGarbage
        = (Except.error SendError.protocolError, (⟨some true⟩ : Bridge)) :=
  ⟨by decide, (malformed_reply_propagates ⟨some true⟩ (by decide)).1⟩

/-- Claim C5: when the bridge subprocess dies (its reply stream yields no
line), the pending `step` fails with the crash error and the handle is
released; the next `reset` unconditionally respawns the subprocess when
it is not running, returns the fresh observation, and subsequent `step`
calls succeed; and `step` never respawns the subprocess — recovery
happens only at `reset`. -/
theorem bridge_crash_recovery (st1 st2 : Bridge) (r rs : BridgeResponse)
    (h1 : st1.handle = some true) (h2 : st2.handle ≠ some true)
    (hr : r.err = none) (hrs : rs.err = none) :
    stepModel st1 BridgeReply.replyEOF
        = (Except.error (EnvError.send SendError.bridgeCrashed), ⟨none⟩)
    ∧ resetModel st2 (BridgeReply.replyOk r) = (Except.ok r.observation, ⟨some true⟩)
    ∧ stepModel ⟨some true⟩ (BridgeReply.replyOk rs)
        = (Except.ok
            { obs := rs.observation, reward := rs.reward,
              terminated := rs.done && !(rs.info.winner == some "timeout"),
              truncated := rs.done && (rs.info.winner == some "timeout"),
              info := rs.info }, ⟨some true⟩)
    ∧ (∀ (st : Bridge) (io_ : BridgeReply), st.handle ≠ some true →
        (stepModel st io_).2.handle ≠ some true) := by
  refine ⟨?_, ?_, ?_, ?_⟩
  · unfold stepModel sendCommandModel
    rw [h1]
  · have he : ensureProcess st2 = ⟨some true⟩ := ensureProcess_of_not_running st2 h2
    unfold resetModel
    rw [he]
    simp only [sendCommandModel, hr]
  · unfold stepModel
    simp only [sendCommandModel, hrs]
  · intro st io_ hst
    obtain ⟨ho⟩ := st
    cases ho with
    | none =>
      cases io_ with
      | writeFails => simp [stepModel, sendCommandModel]
      | replyEOF => simp [stepModel, sendCommandModel]
      | replyGarbage => simp [stepModel, sendCommandModel]
      | replyOk r2 => simp [stepModel, sendCommandModel]
    | some b =>
      cases b
      · cases io_ with
        | writeFails => simp [stepModel, sendCommandModel]
        | replyEOF => simp [stepModel, sendCommandModel]
        | replyGarbage => simp [stepModel, sendCommandModel]
        | replyOk r2 =>
          cases hre : r2.err with
          | none => simp [stepModel, sendCommandModel, hre]
          | some msg => simp [stepModel, sendCommandModel, hre]
      · exact absurd rfl hst

theorem bridge_crash_recovery_witness :
    (⟨some true⟩ : Bridge).handle = some true
    ∧ (⟨none⟩ : Bridge).handle ≠ some true
    ∧ respOk.err = none
    ∧ stepModel ⟨some true⟩ BridgeReply.replyEOF
        = (Except.error (EnvError.send SendError.bridgeCrashed), ⟨none⟩)
    ∧ resetModel ⟨none⟩ (BridgeReply.replyOk respOk)
        = (Except.ok respOk.observation, ⟨some true⟩) :=
  ⟨rfl, by decide, rfl,
   (bridge_crash_recovery ⟨some true⟩ ⟨none⟩ respOk respOk rfl (by decide) rfl rfl).1,
   (bridge_crash_recovery ⟨some true⟩ ⟨none⟩ respOk respOk rfl (by decide) rfl rfl).2.1⟩

lemma loadEntries_map_wellFormed (es : List TelemetryEntry) :
    loadEntries (es.map LogLine.wellFormed) = es := by
  induction es with
  | nil => rfl
  | cons a as ih =>
    simp only [List.map_cons, loadEntries, List.filterMap_cons] at ih ⊢
    rw [ih]

/-- Claim C7: replaying the durable per-stage JSONL log on restart is
idempotent — `JsonLogCallback.__init__` pre-populates the in-memory
sequence with exactly the parseable entries in order, so replaying a log
written from entries `es` reproduces `es`; a malformed or blank line is
skipped rather than fatal; and every actual append extends the in-memory
sequence and the JSONL file by the new entry and rewrites the dashboard
snapshot artifact to the full sequence including the loaded entries. -/
theorem telemetry_replay_idempotent (es : List TelemetryEntry) (l1 l2 : List LogLine)
    (iv : Rat) (st : JsonLogState) (now : Rat) (e : TelemetryEntry)
    (h0 : st.last_log_time ≠ 0) (hgate : ¬ now - st.last_log_time < st.interval) :
    loadEntries (es.map LogLine.wellFormed) = es
    ∧ loadEntries (l1 ++ LogLine.malformed :: l2) = loadEntries (l1 ++ l2)
    ∧ loadEntries (l1 ++ LogLine.blank :: l2) = loadEntries (l1 ++ l2)
    ∧ (jsonLogInit iv (es.map LogLine.wellFormed)).entries = es
    ∧ jsonLogStep st now e
        = { st with
            last_log_time := now,
            entries := st.entries ++ [e],
            jsonl_file := st.jsonl_file ++ [LogLine.wellFormed e],
            dashboard := some (st.entries ++ [e]) } := by
  refine ⟨loadEntries_map_wellFormed es, ?_, ?_, loadEntries_map_wellFormed es, ?_⟩
  · simp [loadEntries, List.filterMap_append, List.filterMap_cons]
  · simp [loadEntries, List.filterMap_append, List.filterMap_cons]
  · unfold jsonLogStep
    rw [if_neg h0, if_neg hgate]

theorem telemetry_replay_idempotent_witness :
    stJsonW.last_log_time ≠ 0
    ∧ ¬ (11 : Rat) - stJsonW.last_log_time < stJsonW.interval
    ∧ jsonLogStep stJsonW 11 entryExample2
        = { stJsonW with
            last_log_time := 11,
            entries := stJsonW.entries ++ [entryExample2],
            jsonl_file := stJsonW.jsonl_file ++ [LogLine.wellFormed entryExample2],
            dashboard := some (stJsonW.entries ++ [entryExample2]) } :=
  ⟨by norm_num [stJsonW], by norm_num [stJsonW],
   (telemetry_replay_idempotent [] [] [] 0 stJsonW 11 entryExample2
     (by norm_num [stJsonW]) (by norm_num [stJsonW])).2.2.2.2⟩

/-- Claim C8: when the configuration file changes and only the active
stage's promotion threshold differs from the live values, the next
watcher poll of `ConfigReloadCallback` sets the live threshold and
changes nothing else — the outcome history, the outcome details, the
`should_promote` latch, the learning rate and every bridge subprocess
are untouched; and a reload failure (parse error) leaves the outcome
tracker, the learning rate and the bridges entirely unchanged. -/
theorem config_reload_frame (st : TrainerState) (now m : Rat) (cfg : ConfigFile)
    (th : Rat)
    (hgate : ¬ now - st.reload.last_check_time < st.reload.check_every_seconds)
    (hm : ¬ m ≤ st.reload.last_mtime)
    (hstage : cfg.stages.lookup st.reload.stage_num = some ⟨some th⟩)
    (hth : th ≠ st.winCb.promotion_threshold)
    (hlr : cfg.ppo.learning_rate.getD st.learningRate = st.learningRate) :
    (configReloadStep st now (some m) (some cfg)).winCb.promotion_threshold = th
    ∧ (configReloadStep st now (some m) (some cfg)).winCb.outcomes = st.winCb.outcomes
    ∧ (configReloadStep st now (some m) (some cfg)).winCb.outcome_details
        = st.winCb.outcome_details
    ∧ (configReloadStep st now (some m) (some cfg)).winCb.should_promote
        = st.winCb.should_promote
    ∧ (configReloadStep st now (some m) (some cfg)).learningRate = st.learningRate
    ∧ (configReloadStep st now (some m) (some cfg)).bridges = st.bridges
    ∧ configReloadStep st now (some m) none
        = { st with
            reload := { st.reload with last_check_time := now, last_mtime := m } }
    ∧ configReloadStep st now none (some cfg)
        = { st with reload := { st.reload with last_check_time := now } } := by
  have hstep : configReloadStep st now (some m) (some cfg)
      = { st with
          winCb := { st.winCb with promotion_threshold := th },
          reload := { st.reload with last_check_time := now, last_mtime := m } } := by
    unfold configReloadStep
    rw [if_neg hgate]
    dsimp only
    rw [if_neg hm]
    rw [hstage]
    simp only [Option.getD_some]
    rw [if_pos hth]
    dsimp only
    rw [hlr, if_neg (fun hc => hc rfl)]
  have hfail : configReloadStep st now (some m) none
      = { st with
          reload := { st.reload with last_check_time := now, last_mtime := m } } := by
    unfold configReloadStep
    rw [if_neg hgate]
    dsimp only
    rw [if_neg hm]
  have hmiss : configReloadStep st now none (some cfg)
      = { st with reload := { st.reload with last_check_time := now } } := by
    unfold configReloadStep
    rw [if_neg hgate]
  rw [hstep, hfail, hmiss]
  exact ⟨rfl, rfl, rfl, rfl, rfl, rfl, rfl, rfl⟩

theorem config_reload_frame_witness :
    ¬ (100 : Rat) - trainerExample.reload.last_check_time
        < trainerExample.reload.check_every_seconds
    ∧ (9 : Rat)/10 ≠ trainerExample.winCb.promotion_threshold
    ∧ (configReloadStep trainerExample 100 (some 5)
        (some cfgThresholdOnly)).winCb.promotion_threshold = 9/10 :=
  ⟨by norm_num [trainerExample], by norm_num [trainerExample],
   (config_reload_frame trainerExample 100 5 cfgThresholdOnly (9/10)
     (by norm_num [trainerExample]) (by norm_num [trainerExample]) rfl
     (by norm_num [trainerExample]) rfl).1⟩
